import Mathlib

/-!
Shallow embedding of the MapUp data-assessment submission
(`submissions/python_task_1.py` and `submissions/python_task_2.py`) together
with proofs about its behaviour.

Modelling conventions:
* distances and toll amounts are rationals (`ℚ`), location identifiers are `Int`;
* a pandas `NaN`/`NaT` cell is `Option.none`;
* a pandas pivot on duplicate `(index, column)` pairs raises `ValueError`, so
  `calculate_distance_matrix` returns `Option DistMatrix` (`none` on duplicates);
* `pd.pivot` / `groupby` sort their labels ascending, modelled by an
  insertion sort with deduplication (`sortedDedup`);
* a clock time is the number of seconds since midnight (`Nat`).
-/

set_option maxHeartbeats 1000000

/-! ## Sorted label lists (pandas sorts pivot/groupby labels ascending) -/

def insertSorted (x : Int) : List Int → List Int
  | [] => [x]
  | y :: ys => if x < y then x :: y :: ys else if x = y then y :: ys else y :: insertSorted x ys

def sortedDedup (l : List Int) : List Int := l.foldr insertSorted []

/-! ## Task 2: distance matrix pipeline -/

/-- One long-form row with columns `id_start`, `id_end`, `distance`. -/
structure PairRec where
  id_start : Int
  id_end : Int
  distance : ℚ
deriving DecidableEq

def startIds (df : List PairRec) : List Int := df.map (fun r => r.id_start)

def endIds (df : List PairRec) : List Int := df.map (fun r => r.id_end)

def pairKeys (df : List PairRec) : List (Int × Int) :=
  df.map (fun r => (r.id_start, r.id_end))

/-- The value the pivot table holds at `(i, j)`: the distance of the (unique,
thanks to the duplicate check) row with `id_start = i`, `id_end = j`. -/
def pivotLookup (df : List PairRec) (i j : Int) : Option ℚ :=
  (df.find? (fun r => r.id_start == i && r.id_end == j)).map (fun r => r.distance)

/-- Cell of `df.pivot(index='id_start', columns='id_end', values='distance').fillna(0)`
after aligning to the union index: the pivot frame only has a cell at `(i, j)`
when `i` occurs as an `id_start` and `j` as an `id_end`; `fillna(0)` turns the
in-frame missing combinations into `0`. -/
def cellRaw (df : List PairRec) (i j : Int) : Option ℚ :=
  if i ∈ startIds df ∧ j ∈ endIds df then some ((pivotLookup df i j).getD 0) else none

/-- The value `distance_matrix.add(distance_matrix.T, fill_value=0)` holds at
an in-frame cell: the sum of the two pivot directions, a missing direction
contributing the `fillna(0)` value `0`. -/
def symVal (df : List PairRec) (i j : Int) : ℚ :=
  (pivotLookup df i j).getD 0 + (pivotLookup df j i).getD 0

/-- Cell of `distance_matrix.add(distance_matrix.T, fill_value=0)`: positions
missing from both operands stay `NaN`, otherwise the missing side contributes
the fill value `0`. -/
def cellAdded (df : List PairRec) (i j : Int) : Option ℚ :=
  match cellRaw df i j, cellRaw df j i with
  | none, none => none
  | a, b => some (a.getD 0 + b.getD 0)

/-- Cell after `np.fill_diagonal(distance_matrix.values, 0)`. -/
def cellFinal (df : List PairRec) (i j : Int) : Option ℚ :=
  if i = j then some 0 else cellAdded df i j

/-- Labels of the symmetrized frame: `.add` aligns the pivot's index (the
distinct `id_start`s) with its transpose's index (the distinct `id_end`s),
producing the sorted union. -/
def matrixIds (df : List PairRec) : List Int := sortedDedup (startIds df ++ endIds df)

/-- A wide-form frame: row/column labels plus a row-major grid of cells
(`none` is a `NaN` cell). -/
structure DistMatrix where
  ids : List Int
  grid : List (List (Option ℚ))
deriving DecidableEq

def calculate_distance_matrix (df : List PairRec) : Option DistMatrix :=
  if (pairKeys df).Nodup then
    some ⟨matrixIds df,
      (matrixIds df).map (fun i => (matrixIds df).map (fun j => cellFinal df i j))⟩
  else none

/-- Cell access into the row-major grid, with out-of-range reads answering
`none` (no cell). -/
def getCell (m : DistMatrix) (k l : Nat) : Option ℚ := (m.grid.getD k []).getD l none

/-- `df.stack().reset_index()` with columns renamed to
`id_start`, `id_end`, `distance`: row-major traversal that drops `NaN` cells. -/
def unroll_distance_matrix (m : DistMatrix) : List PairRec :=
  (m.ids.zip m.grid).bind (fun p =>
    (m.ids.zip p.2).filterMap (fun q => q.2.map (fun d => PairRec.mk p.1 q.1 d)))

/-- `find_ids_within_ten_percentage_threshold`: the reference mean over an
empty selection is `NaN`, and every comparison against `NaN` is `False`, so
the masked result is empty; otherwise the per-`id_start` group means (groupby
sorts the keys ascending) are filtered to the closed ±10% interval. -/
def find_ids_within_ten_percentage_threshold (df : List PairRec) (reference_id : Int) :
    List (Int × ℚ) :=
  match (df.filter (fun r => r.id_start == reference_id)).map (fun r => r.distance) with
  | [] => []
  | d :: ds =>
    let avg : ℚ := (d :: ds).sum / ((d :: ds).length : ℚ)
    let threshold : ℚ := 0.1 * avg
    ((sortedDedup (startIds df)).map (fun i =>
        let gds := (df.filter (fun r => r.id_start == i)).map (fun r => r.distance)
        (i, gds.sum / (gds.length : ℚ)))).filter
      (fun p => decide (avg - threshold ≤ p.2) && decide (p.2 ≤ avg + threshold))

/-! ## Task 2: toll rates -/

def toll_rates : List (String × ℚ) :=
  [("moto", 0.8), ("car", 1.2), ("rv", 1.5), ("bus", 2.2), ("truck", 3.6)]

/-- A long-form row after the `for vehicle_type, rate in toll_rates.items()`
loop appended the five vehicle columns. -/
structure TollRow where
  id_start : Int
  id_end : Int
  distance : ℚ
  tolls : List (String × ℚ)
deriving DecidableEq

def calculate_toll_rate (df : List PairRec) : List TollRow :=
  df.map (fun r =>
    ⟨r.id_start, r.id_end, r.distance, toll_rates.map (fun vr => (vr.1, r.distance * vr.2))⟩)

/-! ## Task 2: time-based toll rates -/

/-- A toll row as consumed by `calculate_time_based_toll_rates`.  The temporal
fields hold what pandas would derive from the stored column values: the
weekday index 0–6 of `start_day`/`end_day` and the seconds-since-midnight of
`start_time`/`end_time`; `none` is a missing / `NaT` value. -/
structure TimedTollRow where
  id_start : Int
  id_end : Int
  distance : ℚ
  start_day : Option Nat
  start_time : Option Nat
  end_day : Option Nat
  end_time : Option Nat
  moto : ℚ
  car : ℚ
  rv : ℚ
  bus : ℚ
  truck : ℚ
deriving DecidableEq

/-- `np.select` over the three `between` conditions (both bounds inclusive),
choices `[0.8, 1.2, 0.8]`, first match wins, default `0`.  A `NaT` time
compares `False` against every band. -/
def weekday_select (t : Option Nat) : ℚ :=
  match t with
  | none => 0
  | some s =>
    if 0 ≤ s ∧ s ≤ 36000 then 0.8
    else if 36000 ≤ s ∧ s ≤ 64800 then 1.2
    else if 64800 ≤ s ∧ s ≤ 86399 then 0.8
    else 0

/-- `np.where(df['start_day'].dt.weekday < 5, np.select(...), 0.7)`.
For a `NaT` start day the weekday is `NaN` and `NaN < 5` is `False`, so the
weekend value `0.7` is chosen. -/
def discount_factor (start_day : Option Nat) (start_time : Option Nat) : ℚ :=
  match start_day with
  | some d => if d < 5 then weekday_select start_time else 0.7
  | none => 0.7

/-- `calculate_time_based_toll_rates`: the first statement
`df['start_day'] = df['start_time'] = df['end_day'] = df['end_time'] = None`
creates/overwrites all four temporal columns with `None` (so `pd.to_datetime`
of them yields `NaT`), then the discount factor is computed from the
overwritten columns, applied to the five vehicle columns, and dropped. -/
def calculate_time_based_toll_rates (df : List TimedTollRow) : List TimedTollRow :=
  df.map (fun r =>
    let r1 := { r with start_day := none, start_time := none, end_day := none, end_time := none }
    let f := discount_factor r1.start_day r1.start_time
    { r1 with moto := r1.moto * f, car := r1.car * f, rv := r1.rv * f,
              bus := r1.bus * f, truck := r1.truck * f })

/-! ## Task 1: time_check -/

/-- The two attributes `time_check` reads off a parsed timestamp:
`timestamp.dt.dayofweek` (0 = Monday … 6 = Sunday) and the clock time
`timestamp.dt.time`, as seconds since midnight. -/
structure Stamp where
  dayofweek : Nat
  seconds : Nat
deriving DecidableEq

structure Obs where
  id : Int
  id_2 : Int
  timestamp : Stamp
deriving DecidableEq

/-- Insertion into a lexicographically sorted, duplicate-free key list. -/
def insertKey (x : Int × Int) : List (Int × Int) → List (Int × Int)
  | [] => [x]
  | y :: ys =>
    if x.1 < y.1 ∨ (x.1 = y.1 ∧ x.2 < y.2) then x :: y :: ys
    else if x = y then y :: ys
    else y :: insertKey x ys

/-- `groupby(['id', 'id_2'])` keys, sorted ascending as pandas does. -/
def groupKeys (df : List Obs) : List (Int × Int) :=
  (df.map (fun o => (o.id, o.id_2))).foldr insertKey []

/-- `lambda x: len(set(x)) == 7` on the group's `day_of_week` column. -/
def dayCheck (days : List Nat) : Bool := days.dedup.length == 7

/-- `lambda x: x.max() - x.min() == pd.Timedelta(hours=23, minutes=59, seconds=59)`
on the group's `time_of_day` column.  The column holds Python `datetime.time`
values, which support comparison (so `max`/`min` succeed) but not subtraction:
`x.max() - x.min()` raises `TypeError` for every group. -/
def timeSpanCheck (_times : List Nat) : Except String Bool :=
  .error "TypeError: unsupported operand type(s) for -: 'datetime.time' and 'datetime.time'"

/-- `time_check`: derive `day_of_week` / `time_of_day`, group by `(id, id_2)`
and aggregate both checks; the final series is the conjunction per group. -/
def time_check (df : List Obs) : Except String (List ((Int × Int) × Bool)) :=
  (groupKeys df).mapM (fun k => do
    let grp := df.filter (fun o => o.id == k.1 && o.id_2 == k.2)
    let dayOk := dayCheck (grp.map (fun o => o.timestamp.dayofweek))
    let timeOk ← timeSpanCheck (grp.map (fun o => o.timestamp.seconds))
    pure (k, dayOk && timeOk))

/-! ## General helper lemmas -/

/-- Boolean equality on `Int` as a decidable proposition, for evaluation. -/
theorem int_beq_eq_decide (a b : Int) : (a == b) = decide (a = b) := by
  by_cases h : a = b <;> simp [h]

theorem mem_insertSorted {a x : Int} : ∀ {l : List Int}, a ∈ insertSorted x l ↔ a = x ∨ a ∈ l
  | [] => by simp [insertSorted]
  | y :: ys => by
    rw [insertSorted]
    split
    · simp
    · split
      · next h1 h2 =>
        subst h2
        simp only [List.mem_cons]
        tauto
      · next h1 h2 =>
        rw [List.mem_cons, mem_insertSorted, List.mem_cons]
        tauto

theorem pairwise_insertSorted {x : Int} : ∀ {l : List Int}, l.Pairwise (· < ·) →
    (insertSorted x l).Pairwise (· < ·)
  | [], _ => by simp [insertSorted]
  | y :: ys, h => by
    rcases List.pairwise_cons.1 h with ⟨hy, hys⟩
    rw [insertSorted]
    split
    · next h1 =>
      refine List.pairwise_cons.2 ⟨?_, h⟩
      intro z hz
      rcases List.mem_cons.1 hz with rfl | hz
      · exact h1
      · exact lt_trans h1 (hy z hz)
    · split
      · next h1 h2 => subst h2; exact h
      · next h1 h2 =>
        have hyx : y < x := by omega
        refine List.pairwise_cons.2 ⟨?_, pairwise_insertSorted hys⟩
        intro z hz
        rcases mem_insertSorted.1 hz with rfl | hz
        · exact hyx
        · exact hy z hz

theorem mem_sortedDedup {a : Int} {l : List Int} : a ∈ sortedDedup l ↔ a ∈ l := by
  induction l with
  | nil => simp [sortedDedup]
  | cons x xs ih =>
    show a ∈ insertSorted x (sortedDedup xs) ↔ _
    rw [mem_insertSorted, ih]
    simp

theorem pairwise_sortedDedup (l : List Int) : (sortedDedup l).Pairwise (· < ·) := by
  induction l with
  | nil => exact List.Pairwise.nil
  | cons x xs ih => exact pairwise_insertSorted ih

theorem nodup_of_pairwise_lt {l : List Int} (h : l.Pairwise (· < ·)) : l.Nodup :=
  h.imp (fun hlt => ne_of_lt hlt)

theorem pairwise_lt_ext :
    ∀ {l₁ l₂ : List Int}, l₁.Pairwise (· < ·) → l₂.Pairwise (· < ·) →
      (∀ x, x ∈ l₁ ↔ x ∈ l₂) → l₁ = l₂
  | [], [], _, _, _ => rfl
  | [], b :: t₂, _, _, hm => absurd ((hm b).2 (List.mem_cons_self b t₂)) (List.not_mem_nil b)
  | a :: t₁, [], _, _, hm => absurd ((hm a).1 (List.mem_cons_self a t₁)) (List.not_mem_nil a)
  | a :: t₁, b :: t₂, h₁, h₂, hm => by
    rcases List.pairwise_cons.1 h₁ with ⟨ha, ht₁⟩
    rcases List.pairwise_cons.1 h₂ with ⟨hb, ht₂⟩
    have hab : a = b := by
      rcases List.mem_cons.1 ((hm a).1 (List.mem_cons_self a t₁)) with h | h
      · exact h
      · rcases List.mem_cons.1 ((hm b).2 (List.mem_cons_self b t₂)) with h' | h'
        · exact h'.symm
        · exact absurd (lt_trans (hb a h) (ha b h')) (lt_irrefl b)
    subst hab
    have htm : ∀ x, x ∈ t₁ ↔ x ∈ t₂ := by
      intro x
      constructor
      · intro hx
        rcases List.mem_cons.1 ((hm x).1 (List.mem_cons_of_mem a hx)) with h | h
        · exact absurd (h ▸ ha x hx) (lt_irrefl x)
        · exact h
      · intro hx
        rcases List.mem_cons.1 ((hm x).2 (List.mem_cons_of_mem a hx)) with h | h
        · exact absurd (h ▸ hb x hx) (lt_irrefl x)
        · exact h
    rw [pairwise_lt_ext ht₁ ht₂ htm]

theorem sortedDedup_eq_of_mem_iff {l u : List Int} (hu : u.Pairwise (· < ·))
    (h : ∀ x, x ∈ l ↔ x ∈ u) : sortedDedup l = u :=
  pairwise_lt_ext (pairwise_sortedDedup l) hu
    (fun x => (mem_sortedDedup (a := x) (l := l)).trans (h x))

/-! ## Claim C1 -/

/-- C1, counterexample.  For the input `[(1,2,10), (2,1,10)]` the pivot holds
`10` in both directions, and `add(transpose)` sums them, so the matrix is
`[[0,20],[20,0]]`, not the claimed `[[0,10],[10,0]]`. -/
theorem C1_counterexample :
    calculate_distance_matrix [⟨1, 2, 10⟩, ⟨2, 1, 10⟩] =
      some ⟨[1, 2], [[some 0, some 20], [some 20, some 0]]⟩ ∧
    (⟨[1, 2], [[some 0, some 20], [some 20, some 0]]⟩ : DistMatrix) ≠
      ⟨[1, 2], [[some 0, some 10], [some 10, some 0]]⟩ := by
  constructor
  · norm_num [calculate_distance_matrix, matrixIds, sortedDedup, insertSorted, startIds,
      endIds, pairKeys, cellFinal, cellAdded, cellRaw, pivotLookup, List.find?, int_beq_eq_decide]
  · decide

/-- C1, amended.  For the two-row input `[(1,2,10), (2,1,10)]` the matrix is
`[[0,20],[20,0]]` over identifiers `[1,2]` (symmetrization adds the two
supplied directions); unrolling it and excluding the diagonal yields
`[(1,2,20), (2,1,20)]`; and `calculate_toll_rate` on the row `(1,2,10)`
yields `car = 12.0` and `truck = 36.0` before discount. -/
theorem C1_amended :
    calculate_distance_matrix [⟨1, 2, 10⟩, ⟨2, 1, 10⟩] =
      some ⟨[1, 2], [[some 0, some 20], [some 20, some 0]]⟩ ∧
    (unroll_distance_matrix ⟨[1, 2], [[some 0, some 20], [some 20, some 0]]⟩).filter
        (fun r => r.id_start != r.id_end) = [⟨1, 2, 20⟩, ⟨2, 1, 20⟩] ∧
    calculate_toll_rate [⟨1, 2, 10⟩] =
      [⟨1, 2, 10, [("moto", 8), ("car", 12), ("rv", 15), ("bus", 22), ("truck", 36)]⟩] := by
  refine ⟨?_, ?_, ?_⟩
  · norm_num [calculate_distance_matrix, matrixIds, sortedDedup, insertSorted, startIds,
      endIds, pairKeys, cellFinal, cellAdded, cellRaw, pivotLookup, List.find?, int_beq_eq_decide]
  · norm_num [unroll_distance_matrix, List.zip, List.zipWith, List.filter, int_beq_eq_decide, bne]
  · norm_num [calculate_toll_rate, toll_rates]

/-! ## Claim C2 -/

/-- C2, code bug evidence.  A record whose caller-supplied `start_day` is a
Monday (weekday 0) at `start_time` 09:00:00 (32400 s) is rescaled by `0.7`,
not `0.8`: the function overwrites the temporal columns with `None` before
classifying, so the weekday branch is never taken — even though the code's
own band table would give `0.8` for that time. -/
theorem C2_weekday_rates_never_applied :
    calculate_time_based_toll_rates
        [⟨1, 2, 10, some 0, some 32400, some 0, some 36000, 8, 12, 15, 22, 36⟩] =
      [⟨1, 2, 10, none, none, none, none,
        8 * 0.7, 12 * 0.7, 15 * 0.7, 22 * 0.7, 36 * 0.7⟩] ∧
    discount_factor (some 0) (some 32400) = 0.8 ∧
    (8 * 0.7 : ℚ) ≠ 8 * 0.8 := by
  refine ⟨?_, ?_, ?_⟩ <;>
    norm_num [calculate_time_based_toll_rates, discount_factor, weekday_select]

/-! ## Claim C3 -/

/-- C3.  For every input, `calculate_time_based_toll_rates` computes the
discount factor `0.7` for every record (the four temporal columns are first
overwritten with null, so the weekday test is never satisfied), and every
vehicle toll column of the output equals its input value times `0.7`. -/
theorem C3_always_weekend_discount :
    (∀ t, discount_factor none t = 0.7) ∧
    ∀ df : List TimedTollRow, calculate_time_based_toll_rates df =
      df.map (fun r =>
        { r with start_day := none, start_time := none, end_day := none, end_time := none,
                 moto := r.moto * 0.7, car := r.car * 0.7, rv := r.rv * 0.7,
                 bus := r.bus * 0.7, truck := r.truck * 0.7 }) := by
  constructor
  · intro t; rfl
  · intro df; rfl

/-! ## Claim C4 -/

/-- C4, code bug evidence.  On input whose temporal fields are not populated,
`calculate_time_based_toll_rates` does not fail: its first assignment creates
the four columns and fills them with `None`, and the call returns normally
with every vehicle column scaled by `0.7`. -/
theorem C4_missing_fields_no_error :
    calculate_time_based_toll_rates
        [⟨1, 2, 10, none, none, none, none, 8, 12, 15, 22, 36⟩] =
      [⟨1, 2, 10, none, none, none, none,
        8 * 0.7, 12 * 0.7, 15 * 0.7, 22 * 0.7, 36 * 0.7⟩] := by
  norm_num [calculate_time_based_toll_rates, discount_factor, weekday_select]

/-! ## Claim C5 -/

/-- C5, code bug evidence.  A group covering all 7 weekdays with clock times
exactly spanning 00:00:00 to 23:59:59 does not evaluate to `true`: the
aggregation subtracts two `datetime.time` values, which raises `TypeError`,
so `time_check` fails on every nonempty input — also on the variant missing
Sunday, which the claim expects to be `false`. -/
theorem C5_time_check_type_error :
    time_check
        [⟨1, 1, ⟨0, 0⟩⟩, ⟨1, 1, ⟨1, 3600⟩⟩, ⟨1, 1, ⟨2, 7200⟩⟩, ⟨1, 1, ⟨3, 10800⟩⟩,
         ⟨1, 1, ⟨4, 14400⟩⟩, ⟨1, 1, ⟨5, 18000⟩⟩, ⟨1, 1, ⟨6, 86399⟩⟩] =
      .error "TypeError: unsupported operand type(s) for -: 'datetime.time' and 'datetime.time'" ∧
    time_check
        [⟨1, 1, ⟨0, 0⟩⟩, ⟨1, 1, ⟨1, 3600⟩⟩, ⟨1, 1, ⟨2, 7200⟩⟩, ⟨1, 1, ⟨3, 10800⟩⟩,
         ⟨1, 1, ⟨4, 14400⟩⟩, ⟨1, 1, ⟨5, 86399⟩⟩] =
      .error "TypeError: unsupported operand type(s) for -: 'datetime.time' and 'datetime.time'" := by
  constructor <;> rfl

/-! ## Claim C6 -/

/-- C6, counterexample.  With input `[(1,2,10)]` and `reference_id = 3` there
is no matching record, yet the call does not fail: it returns the empty
table (the `NaN` reference mean makes every threshold comparison `False`). -/
theorem C6_counterexample :
    ([⟨1, 2, 10⟩] : List PairRec).filter (fun r => r.id_start == 3) = [] ∧
    find_ids_within_ten_percentage_threshold [⟨1, 2, 10⟩] 3 = [] := by
  decide

/-- C6, amended.  If `reference_id` has zero matching records, the reference
mean is `NaN` and every comparison with `NaN` is `False`, so the call returns
an empty result instead of raising a domain error. -/
theorem C6_empty_reference_returns_empty (df : List PairRec) (reference_id : Int)
    (h : df.filter (fun r => r.id_start == reference_id) = []) :
    find_ids_within_ten_percentage_threshold df reference_id = [] := by
  unfold find_ids_within_ten_percentage_threshold
  rw [h]
  rfl

/-- C6, witness for the amended theorem. -/
theorem C6_witness :
    ([⟨1, 2, 10⟩, ⟨2, 1, 4⟩] : List PairRec).filter (fun r => r.id_start == 5) = [] ∧
    find_ids_within_ten_percentage_threshold [⟨1, 2, 10⟩, ⟨2, 1, 4⟩] 5 = [] :=
  ⟨by decide, C6_empty_reference_returns_empty [⟨1, 2, 10⟩, ⟨2, 1, 4⟩] 5 (by decide)⟩

/-! ## Claim C10 -/

/-- C10.  Every row produced by `calculate_toll_rate` carries exactly the five
vehicle columns `moto, car, rv, bus, truck`, holding `distance × 0.8`,
`× 1.2`, `× 1.5`, `× 2.2`, `× 3.6` respectively. -/
theorem C10_toll_rate_columns (df : List PairRec) (t : TollRow)
    (ht : t ∈ calculate_toll_rate df) :
    t.tolls.map Prod.fst = ["moto", "car", "rv", "bus", "truck"] ∧
    t.tolls = [("moto", t.distance * 0.8), ("car", t.distance * 1.2), ("rv", t.distance * 1.5),
               ("bus", t.distance * 2.2), ("truck", t.distance * 3.6)] := by
  rcases List.mem_map.1 ht with ⟨r, _, rfl⟩
  constructor <;> simp [toll_rates]

/-- C10, witness. -/
theorem C10_witness :
    (⟨1, 2, 10, [("moto", 8), ("car", 12), ("rv", 15), ("bus", 22), ("truck", 36)]⟩ : TollRow) ∈
      calculate_toll_rate [⟨1, 2, 10⟩] ∧
    ([(("moto" : String), (8 : ℚ)), ("car", 12), ("rv", 15), ("bus", 22), ("truck", 36)]).map
      Prod.fst = ["moto", "car", "rv", "bus", "truck"] :=
  ⟨by norm_num [calculate_toll_rate, toll_rates],
   (C10_toll_rate_columns [⟨1, 2, 10⟩]
     ⟨1, 2, 10, [("moto", 8), ("car", 12), ("rv", 15), ("bus", 22), ("truck", 36)]⟩
     (by norm_num [calculate_toll_rate, toll_rates])).1⟩

/-! ## Distance-matrix structure lemmas -/

theorem cdm_eq {df : List PairRec} {M : DistMatrix}
    (h : calculate_distance_matrix df = some M) :
    (pairKeys df).Nodup ∧
      M = ⟨matrixIds df,
        (matrixIds df).map (fun i => (matrixIds df).map (fun j => cellFinal df i j))⟩ := by
  unfold calculate_distance_matrix at h
  split at h
  · next hnd => exact ⟨hnd, (Option.some.inj h).symm⟩
  · exact absurd h (by simp)

theorem getCell_grid (U : List Int) (g : Int → Int → Option ℚ) (k l : Nat) :
    getCell ⟨U, U.map (fun i => U.map (fun j => g i j))⟩ k l =
      (U[k]?.bind fun i => U[l]?.bind fun j => g i j) := by
  unfold getCell
  rcases hk : U[k]? with _ | i
  · simp [List.getD_eq_getElem?_getD, List.getElem?_map, hk]
  · rcases hl : U[l]? with _ | j <;>
      simp [List.getD_eq_getElem?_getD, List.getElem?_map, hk, hl]

theorem cellAdded_comm (df : List PairRec) (i j : Int) :
    cellAdded df i j = cellAdded df j i := by
  cases h1 : cellRaw df i j <;> cases h2 : cellRaw df j i <;>
    simp [cellAdded, h1, h2, add_comm]

theorem cellFinal_comm (df : List PairRec) (i j : Int) :
    cellFinal df i j = cellFinal df j i := by
  unfold cellFinal
  by_cases h : i = j
  · subst h; simp
  · rw [if_neg h, if_neg (fun hj => h hj.symm)]
    exact cellAdded_comm df i j

theorem zip_self_map {α β : Type} (l : List α) (f : α → β) :
    l.zip (l.map f) = l.map (fun a => (a, f a)) := by
  induction l with
  | nil => rfl
  | cons a t ih => simp [ih]

theorem list_bind_map_left {α β γ : Type} (l : List α) (f : α → β) (g : β → List γ) :
    (l.map f).bind g = l.bind (fun a => g (f a)) := by
  induction l with
  | nil => rfl
  | cons a t ih => simp [ih]

theorem filterMap_map_left {α β γ : Type} (l : List α) (f : α → β) (g : β → Option γ) :
    (l.map f).filterMap g = l.filterMap (fun a => g (f a)) := by
  induction l with
  | nil => rfl
  | cons a t ih => cases h : g (f a) <;> simp [List.filterMap_cons, h, ih]

theorem unroll_cdm (U : List Int) (g : Int → Int → Option ℚ) :
    unroll_distance_matrix ⟨U, U.map (fun i => U.map (fun j => g i j))⟩ =
      U.bind (fun i => U.filterMap (fun j => (g i j).map (fun d => PairRec.mk i j d))) := by
  simp only [unroll_distance_matrix, zip_self_map, list_bind_map_left, filterMap_map_left]

/-! ## Claim C8 -/

/-- C8.  Every matrix returned by `calculate_distance_matrix` is square
(grid of `ids.length` rows, each of `ids.length` cells), symmetric
(`getCell M k l = getCell M l k` for all positions), and has an all-zero
diagonal regardless of any input values for self-pairs. -/
theorem C8_square_symmetric_zero_diagonal (df : List PairRec) (M : DistMatrix)
    (h : calculate_distance_matrix df = some M) :
    (M.grid.length = M.ids.length ∧ ∀ row ∈ M.grid, row.length = M.ids.length) ∧
    (∀ k l : Nat, getCell M k l = getCell M l k) ∧
    (∀ k : Nat, k < M.ids.length → getCell M k k = some 0) := by
  obtain ⟨hnd, rfl⟩ := cdm_eq h
  refine ⟨⟨by simp, ?_⟩, ?_, ?_⟩
  · intro row hrow
    rcases List.mem_map.1 hrow with ⟨i, _, rfl⟩
    simp
  · intro k l
    rw [getCell_grid, getCell_grid]
    rcases hk : (matrixIds df)[k]? with _ | i <;> rcases hl : (matrixIds df)[l]? with _ | j <;>
      simp
    exact cellFinal_comm df i j
  · intro k hk
    have hk' : k < (matrixIds df).length := by simpa using hk
    rw [getCell_grid, List.getElem?_eq_getElem hk']
    simp [cellFinal]

/-- C8, witness. -/
theorem C8_witness :
    calculate_distance_matrix [(⟨1, 2, 10⟩ : PairRec)] =
      some ⟨[1, 2], [[some 0, some 10], [some 10, some 0]]⟩ ∧
    getCell ⟨[1, 2], [[some 0, some 10], [some 10, some 0]]⟩ 0 1 =
      getCell ⟨[1, 2], [[some 0, some 10], [some 10, some 0]]⟩ 1 0 ∧
    getCell ⟨[1, 2], [[some 0, some 10], [some 10, some 0]]⟩ 0 0 = some 0 :=
  ⟨by norm_num [calculate_distance_matrix, matrixIds, sortedDedup, insertSorted, startIds,
      endIds, pairKeys, cellFinal, cellAdded, cellRaw, pivotLookup, List.find?, int_beq_eq_decide],
   (C8_square_symmetric_zero_diagonal [⟨1, 2, 10⟩] ⟨[1, 2], [[some 0, some 10], [some 10, some 0]]⟩
     (by norm_num [calculate_distance_matrix, matrixIds, sortedDedup, insertSorted, startIds,
       endIds, pairKeys, cellFinal, cellAdded, cellRaw, pivotLookup, List.find?,
       int_beq_eq_decide])).2.1 0 1,
   (C8_square_symmetric_zero_diagonal [⟨1, 2, 10⟩] ⟨[1, 2], [[some 0, some 10], [some 10, some 0]]⟩
     (by norm_num [calculate_distance_matrix, matrixIds, sortedDedup, insertSorted, startIds,
       endIds, pairKeys, cellFinal, cellAdded, cellRaw, pivotLookup, List.find?,
       int_beq_eq_decide])).2.2 0 (by decide)⟩

/-! ## Claim C9 -/

/-- C9, counterexample.  Unrolling the matrix built from `[(1,2,10)]` emits
the self-pair records `(1,1,0)` and `(2,2,0)`: `stack()` keeps the zero
diagonal, so not every output row satisfies `id_start ≠ id_end`. -/
theorem C9_counterexample :
    (calculate_distance_matrix [(⟨1, 2, 10⟩ : PairRec)]).map unroll_distance_matrix =
      some [⟨1, 1, 0⟩, ⟨1, 2, 10⟩, ⟨2, 1, 10⟩, ⟨2, 2, 0⟩] ∧
    ¬ (∀ r ∈ [PairRec.mk 1 1 0, ⟨1, 2, 10⟩, ⟨2, 1, 10⟩, ⟨2, 2, 0⟩],
        r.id_start ≠ r.id_end) := by
  constructor
  · norm_num [calculate_distance_matrix, matrixIds, sortedDedup, insertSorted, startIds,
      endIds, pairKeys, cellFinal, cellAdded, cellRaw, pivotLookup, List.find?, int_beq_eq_decide,
      unroll_distance_matrix, List.zip, List.zipWith, List.filterMap_cons]
  · intro hall
    exact hall ⟨1, 1, 0⟩ (List.mem_cons_self _ _) rfl

/-- C9, amended.  `unroll_distance_matrix` emits one record per non-`NaN`
cell, the diagonal included; but every self-pair record unrolled from a
`calculate_distance_matrix` output has distance `0` (the diagonal is forced
to zero). -/
theorem C9_self_pair_zero (df : List PairRec) (M : DistMatrix) (i : Int) (d : ℚ)
    (h : calculate_distance_matrix df = some M)
    (hmem : PairRec.mk i i d ∈ unroll_distance_matrix M) : d = 0 := by
  obtain ⟨hnd, rfl⟩ := cdm_eq h
  rw [unroll_cdm] at hmem
  rcases List.mem_bind.1 hmem with ⟨a, ha, hin⟩
  rcases List.mem_filterMap.1 hin with ⟨j, hj, hoj⟩
  rcases hgd : cellFinal df a j with _ | d'
  · rw [hgd] at hoj; simp at hoj
  · rw [hgd] at hoj
    simp only [Option.map_some', Option.some.injEq, PairRec.mk.injEq] at hoj
    obtain ⟨rfl, rfl, rfl⟩ := hoj
    rw [cellFinal, if_pos rfl] at hgd
    exact (Option.some.inj hgd).symm

/-- C9, witness for the amended theorem. -/
theorem C9_witness :
    PairRec.mk 1 1 0 ∈
      unroll_distance_matrix ⟨[1, 2], [[some 0, some 10], [some 10, some 0]]⟩ ∧
    (0 : ℚ) = 0 :=
  ⟨by norm_num [unroll_distance_matrix, List.zip, List.zipWith],
   C9_self_pair_zero [⟨1, 2, 10⟩] ⟨[1, 2], [[some 0, some 10], [some 10, some 0]]⟩ 1 0
     (by norm_num [calculate_distance_matrix, matrixIds, sortedDedup, insertSorted, startIds,
       endIds, pairKeys, cellFinal, cellAdded, cellRaw, pivotLookup, List.find?,
       int_beq_eq_decide])
     (by norm_num [unroll_distance_matrix, List.zip, List.zipWith])⟩

/-! ## Round-trip machinery (claim C7) -/

theorem mem_matrixIds {df : List PairRec} {i : Int} :
    i ∈ matrixIds df ↔ i ∈ startIds df ∨ i ∈ endIds df := by
  rw [matrixIds, mem_sortedDedup, List.mem_append]

theorem cellAdded_eq_symVal (df : List PairRec) {i j : Int}
    (hi : i ∈ startIds df ∧ i ∈ endIds df) (hj : j ∈ startIds df ∧ j ∈ endIds df) :
    cellAdded df i j = some (symVal df i j) := by
  have h1 : cellRaw df i j = some ((pivotLookup df i j).getD 0) := by
    unfold cellRaw; exact if_pos ⟨hi.1, hj.2⟩
  have h2 : cellRaw df j i = some ((pivotLookup df j i).getD 0) := by
    unfold cellRaw; exact if_pos ⟨hj.1, hi.2⟩
  unfold cellAdded
  rw [h1, h2]
  rfl

theorem symVal_comm (df : List PairRec) (i j : Int) : symVal df j i = symVal df i j := by
  rw [symVal, symVal, add_comm]

theorem exists_other {U : List Int} (hU : U.Nodup) (hlen : 2 ≤ U.length)
    {x : Int} (hx : x ∈ U) : ∃ j ∈ U, j ≠ x := by
  match U, hU, hlen, hx with
  | a :: b :: t, hU, _, hx =>
    have hab : a ≠ b := by
      intro h
      exact (List.nodup_cons.1 hU).1 (h ▸ List.mem_cons_self b t)
    by_cases hxa : x = a
    · exact ⟨b, List.mem_cons_of_mem a (List.mem_cons_self b t),
        by subst hxa; exact fun h => hab h.symm⟩
    · exact ⟨a, List.mem_cons_self a _, fun h => hxa h.symm⟩

theorem filtered_unroll (df : List PairRec)
    (hboth : ∀ i ∈ matrixIds df, i ∈ startIds df ∧ i ∈ endIds df) :
    (unroll_distance_matrix ⟨matrixIds df,
        (matrixIds df).map (fun i => (matrixIds df).map (fun j => cellFinal df i j))⟩).filter
      (fun r => r.id_start != r.id_end) =
    (matrixIds df).bind (fun i => (matrixIds df).filterMap (fun j =>
      if i = j then none else some (PairRec.mk i j (symVal df i j)))) := by
  rw [unroll_cdm, List.filter_bind]
  refine List.bind_congr ?_
  intro i hi
  rw [List.filter_filterMap]
  refine List.filterMap_congr ?_
  intro j hj
  by_cases hij : i = j
  · subst hij
    rw [cellFinal, if_pos rfl]
    simp [Option.filter]
  · rw [cellFinal, if_neg hij, cellAdded_eq_symVal df (hboth i hi) (hboth j hj)]
    simp [Option.filter, bne, int_beq_eq_decide, hij]

theorem keys_nodup (U : List Int) (v : Int → Int → ℚ) (hU : U.Nodup) :
    (pairKeys (U.bind (fun i => U.filterMap (fun j =>
        if i = j then none else some (PairRec.mk i j (v i j)))))).Nodup := by
  unfold pairKeys
  rw [List.map_bind]
  have hinner : ∀ i ∈ U,
      (U.filterMap (fun j => if i = j then none else some (PairRec.mk i j (v i j)))).map
          (fun r => (r.id_start, r.id_end)) =
        U.filterMap (fun j => if i = j then none else some (i, j)) := by
    intro i _
    rw [List.map_filterMap]
    refine List.filterMap_congr ?_
    intro j _
    by_cases hij : i = j <;> simp [hij]
  rw [List.bind_congr hinner]
  rw [List.nodup_bind]
  constructor
  · intro i _
    refine List.Nodup.filterMap ?_ hU
    intro a a' b hb hb'
    by_cases h1 : i = a
    · rw [if_pos h1] at hb; exact absurd hb (by simp)
    · rw [if_neg h1] at hb
      by_cases h2 : i = a'
      · rw [if_pos h2] at hb'; exact absurd hb' (by simp)
      · rw [if_neg h2] at hb'
        have e1 : (i, a) = b := Option.some.inj (Option.mem_def.1 hb)
        have e2 : (i, a') = b := Option.some.inj (Option.mem_def.1 hb')
        have e3 := e1.trans e2.symm
        exact (Prod.ext_iff.1 e3).2
  · have hUne : U.Pairwise (· ≠ ·) := hU
    refine hUne.imp ?_
    intro a b hab x hxa hxb
    rcases List.mem_filterMap.1 hxa with ⟨j, _, hj⟩
    rcases List.mem_filterMap.1 hxb with ⟨j', _, hj'⟩
    by_cases h1 : a = j
    · rw [if_pos h1] at hj; exact absurd hj (by simp)
    · rw [if_neg h1] at hj
      by_cases h2 : b = j'
      · rw [if_pos h2] at hj'; exact absurd hj' (by simp)
      · rw [if_neg h2] at hj'
        obtain rfl := Option.some.inj hj
        have : b = a := (Prod.ext_iff.1 (Option.some.inj hj')).1
        exact hab this.symm

theorem mem_startIds_bind (U : List Int) (v : Int → Int → ℚ) (hU : U.Nodup)
    (hlen : 2 ≤ U.length) (x : Int) :
    x ∈ startIds (U.bind (fun i => U.filterMap (fun j =>
      if i = j then none else some (PairRec.mk i j (v i j))))) ↔ x ∈ U := by
  unfold startIds
  rw [List.map_bind]
  have hinner : ∀ i ∈ U,
      (U.filterMap (fun j => if i = j then none else some (PairRec.mk i j (v i j)))).map
          (fun r => r.id_start) =
        U.filterMap (fun j => if i = j then none else some i) := by
    intro i _
    rw [List.map_filterMap]
    refine List.filterMap_congr ?_
    intro j _
    by_cases hij : i = j <;> simp [hij]
  rw [List.bind_congr hinner]
  constructor
  · intro hx
    rcases List.mem_bind.1 hx with ⟨i, hi, hin⟩
    rcases List.mem_filterMap.1 hin with ⟨j, _, hj⟩
    by_cases hij : i = j
    · rw [if_pos hij] at hj; exact absurd hj (by simp)
    · rw [if_neg hij] at hj
      exact (Option.some.inj hj) ▸ hi
  · intro hx
    rcases exists_other hU hlen hx with ⟨j, hj, hjx⟩
    refine List.mem_bind.2 ⟨x, hx, List.mem_filterMap.2 ⟨j, hj, ?_⟩⟩
    rw [if_neg (fun h => hjx h.symm)]

theorem mem_endIds_bind (U : List Int) (v : Int → Int → ℚ) (hU : U.Nodup)
    (hlen : 2 ≤ U.length) (x : Int) :
    x ∈ endIds (U.bind (fun i => U.filterMap (fun j =>
      if i = j then none else some (PairRec.mk i j (v i j))))) ↔ x ∈ U := by
  unfold endIds
  rw [List.map_bind]
  have hinner : ∀ i ∈ U,
      (U.filterMap (fun j => if i = j then none else some (PairRec.mk i j (v i j)))).map
          (fun r => r.id_end) =
        U.filterMap (fun j => if i = j then none else some j) := by
    intro i _
    rw [List.map_filterMap]
    refine List.filterMap_congr ?_
    intro j _
    by_cases hij : i = j <;> simp [hij]
  rw [List.bind_congr hinner]
  constructor
  · intro hx
    rcases List.mem_bind.1 hx with ⟨i, hi, hin⟩
    rcases List.mem_filterMap.1 hin with ⟨j, hjU, hj⟩
    by_cases hij : i = j
    · rw [if_pos hij] at hj; exact absurd hj (by simp)
    · rw [if_neg hij] at hj
      exact (Option.some.inj hj) ▸ hjU
  · intro hx
    rcases exists_other hU hlen hx with ⟨i, hi, hix⟩
    refine List.mem_bind.2 ⟨i, hi, List.mem_filterMap.2 ⟨x, hx, ?_⟩⟩
    rw [if_neg hix]

theorem matrixIds_bind_eq (U : List Int) (v : Int → Int → ℚ)
    (hU : U.Pairwise (· < ·)) (hlen : 2 ≤ U.length) :
    matrixIds (U.bind (fun i => U.filterMap (fun j =>
      if i = j then none else some (PairRec.mk i j (v i j))))) = U := by
  unfold matrixIds
  refine sortedDedup_eq_of_mem_iff hU ?_
  intro x
  rw [List.mem_append, mem_startIds_bind U v (nodup_of_pairwise_lt hU) hlen,
    mem_endIds_bind U v (nodup_of_pairwise_lt hU) hlen]
  tauto

theorem find?_inner_eq_none (U : List Int) (v : Int → Int → ℚ) (i a b : Int) (hia : i ≠ a) :
    (U.filterMap (fun j => if i = j then none else some (PairRec.mk i j (v i j)))).find?
      (fun r => r.id_start == a && r.id_end == b) = none := by
  rw [List.find?_eq_none]
  intro x hx
  rcases List.mem_filterMap.1 hx with ⟨j, _, hj⟩
  by_cases hij : i = j
  · rw [if_pos hij] at hj; exact absurd hj (by simp)
  · rw [if_neg hij] at hj
    obtain rfl := Option.some.inj hj
    simp [int_beq_eq_decide, hia]

theorem find?_inner_eq_some (U : List Int) (v : Int → Int → ℚ) (a b : Int) (hab : a ≠ b) :
    ∀ L : List Int, b ∈ L →
      (L.filterMap (fun j => if a = j then none else some (PairRec.mk a j (v a j)))).find?
        (fun r => r.id_start == a && r.id_end == b) = some (PairRec.mk a b (v a b))
  | [], hb => absurd hb (List.not_mem_nil b)
  | c :: t, hb => by
    rw [List.filterMap_cons]
    by_cases hac : a = c
    · rw [if_pos hac]
      have hbt : b ∈ t := by
        rcases List.mem_cons.1 hb with rfl | h
        · exact absurd hac hab
        · exact h
      exact find?_inner_eq_some U v a b hab t hbt
    · rw [if_neg hac, List.find?_cons]
      by_cases hcb : c = b
      · subst hcb
        simp [int_beq_eq_decide]
      · have : ((PairRec.mk a c (v a c)).id_start == a && (PairRec.mk a c (v a c)).id_end == b) =
            false := by
          simp [int_beq_eq_decide, hcb]
        rw [this]
        have hbt : b ∈ t := by
          rcases List.mem_cons.1 hb with rfl | h
          · exact absurd rfl hcb
          · exact h
        exact find?_inner_eq_some U v a b hab t hbt

theorem find?_bind_eq (U : List Int) (v : Int → Int → ℚ) (a b : Int) (hb : b ∈ U) (hab : a ≠ b) :
    ∀ L : List Int, a ∈ L →
      ((L.bind (fun i => U.filterMap (fun j =>
          if i = j then none else some (PairRec.mk i j (v i j))))).find?
        (fun r => r.id_start == a && r.id_end == b)) = some (PairRec.mk a b (v a b))
  | [], ha => absurd ha (List.not_mem_nil a)
  | c :: t, ha => by
    have hstep : (c :: t).bind (fun i => U.filterMap (fun j =>
        if i = j then none else some (PairRec.mk i j (v i j)))) =
      U.filterMap (fun j => if c = j then none else some (PairRec.mk c j (v c j))) ++
        t.bind (fun i => U.filterMap (fun j =>
          if i = j then none else some (PairRec.mk i j (v i j)))) := rfl
    rw [hstep, List.find?_append]
    by_cases hca : c = a
    · subst hca
      rw [find?_inner_eq_some U v c b hab U hb]
      rfl
    · rw [find?_inner_eq_none U v c a b hca, Option.none_or]
      have hat : a ∈ t := by
        rcases List.mem_cons.1 ha with rfl | h
        · exact absurd rfl hca
        · exact h
      exact find?_bind_eq U v a b hb hab t hat

theorem pivotLookup_bind (U : List Int) (v : Int → Int → ℚ) (a b : Int)
    (ha : a ∈ U) (hb : b ∈ U) (hab : a ≠ b) :
    pivotLookup (U.bind (fun i => U.filterMap (fun j =>
        if i = j then none else some (PairRec.mk i j (v i j))))) a b = some (v a b) := by
  unfold pivotLookup
  rw [find?_bind_eq U v a b hb hab U ha]
  rfl

theorem rebuilt_cell (df : List PairRec)
    (hboth : ∀ i ∈ matrixIds df, i ∈ startIds df ∧ i ∈ endIds df)
    (hlen : 2 ≤ (matrixIds df).length)
    {i j : Int} (hi : i ∈ matrixIds df) (hj : j ∈ matrixIds df) :
    cellFinal ((matrixIds df).bind (fun a => (matrixIds df).filterMap (fun b =>
        if a = b then none else some (PairRec.mk a b (symVal df a b))))) i j =
      Option.map (fun d => 2 * d) (cellFinal df i j) := by
  have hUnd : (matrixIds df).Nodup := nodup_of_pairwise_lt (pairwise_sortedDedup _)
  by_cases hij : i = j
  · subst hij
    rw [cellFinal, if_pos rfl, cellFinal, if_pos rfl]
    simp
  · rw [cellFinal, if_neg hij, cellFinal, if_neg hij,
      cellAdded_eq_symVal df (hboth i hi) (hboth j hj)]
    have hiR : i ∈ startIds ((matrixIds df).bind (fun a => (matrixIds df).filterMap (fun b =>
          if a = b then none else some (PairRec.mk a b (symVal df a b))))) ∧
        i ∈ endIds ((matrixIds df).bind (fun a => (matrixIds df).filterMap (fun b =>
          if a = b then none else some (PairRec.mk a b (symVal df a b))))) :=
      ⟨(mem_startIds_bind (matrixIds df) (symVal df) hUnd hlen i).2 hi,
       (mem_endIds_bind (matrixIds df) (symVal df) hUnd hlen i).2 hi⟩
    have hjR : j ∈ startIds ((matrixIds df).bind (fun a => (matrixIds df).filterMap (fun b =>
          if a = b then none else some (PairRec.mk a b (symVal df a b))))) ∧
        j ∈ endIds ((matrixIds df).bind (fun a => (matrixIds df).filterMap (fun b =>
          if a = b then none else some (PairRec.mk a b (symVal df a b))))) :=
      ⟨(mem_startIds_bind (matrixIds df) (symVal df) hUnd hlen j).2 hj,
       (mem_endIds_bind (matrixIds df) (symVal df) hUnd hlen j).2 hj⟩
    rw [cellAdded_eq_symVal _ hiR hjR]
    rw [symVal, pivotLookup_bind (matrixIds df) (symVal df) i j hi hj hij,
      pivotLookup_bind (matrixIds df) (symVal df) j i hj hi (fun h => hij h.symm)]
    rw [symVal_comm df j i]
    simp [two_mul]

/-! ## Claim C7 -/

/-- C7, counterexample.  For the input `[(1,2,10)]` the matrix is
`[[0,10],[10,0]]`; unrolling it, dropping the self-pair records and
re-building yields `[[0,20],[20,0]]` — the round trip doubles the
off-diagonal entries instead of reproducing the matrix. -/
theorem C7_counterexample :
    calculate_distance_matrix [(⟨1, 2, 10⟩ : PairRec)] =
      some ⟨[1, 2], [[some 0, some 10], [some 10, some 0]]⟩ ∧
    calculate_distance_matrix
        ((unroll_distance_matrix ⟨[1, 2], [[some 0, some 10], [some 10, some 0]]⟩).filter
          (fun r => r.id_start != r.id_end)) =
      some ⟨[1, 2], [[some 0, some 20], [some 20, some 0]]⟩ ∧
    (⟨[1, 2], [[some 0, some 20], [some 20, some 0]]⟩ : DistMatrix) ≠
      ⟨[1, 2], [[some 0, some 10], [some 10, some 0]]⟩ := by
  refine ⟨?_, ?_, ?_⟩
  · norm_num [calculate_distance_matrix, matrixIds, sortedDedup, insertSorted, startIds,
      endIds, pairKeys, cellFinal, cellAdded, cellRaw, pivotLookup, List.find?, int_beq_eq_decide]
  · norm_num [calculate_distance_matrix, matrixIds, sortedDedup, insertSorted, startIds,
      endIds, pairKeys, cellFinal, cellAdded, cellRaw, pivotLookup, List.find?, int_beq_eq_decide,
      unroll_distance_matrix, List.zip, List.zipWith, List.filterMap_cons, List.filter, bne]
  · decide

/-- C7, amended.  For a matrix `M` built by `calculate_distance_matrix` from
an input whose `id_start` set equals its `id_end` set (e.g. any symmetric
input) and which involves at least two identifiers, unrolling `M`, dropping
the self-pair records and re-building does not reproduce `M`: it yields the
matrix over the same identifiers with every entry doubled (the zero diagonal
is unchanged, every off-diagonal entry is twice the original). -/
theorem C7_roundtrip_doubles (df : List PairRec) (M : DistMatrix)
    (h : calculate_distance_matrix df = some M)
    (hS : ∀ x ∈ startIds df, x ∈ endIds df)
    (hE : ∀ x ∈ endIds df, x ∈ startIds df)
    (hlen : 2 ≤ M.ids.length) :
    calculate_distance_matrix
        ((unroll_distance_matrix M).filter (fun r => r.id_start != r.id_end)) =
      some ⟨M.ids, M.grid.map (fun row => row.map (fun c => c.map (fun d => 2 * d)))⟩ := by
  obtain ⟨hnd, rfl⟩ := cdm_eq h
  have hlen' : 2 ≤ (matrixIds df).length := hlen
  have hboth : ∀ i ∈ matrixIds df, i ∈ startIds df ∧ i ∈ endIds df := by
    intro i hi
    rcases mem_matrixIds.1 hi with h' | h'
    · exact ⟨h', hS i h'⟩
    · exact ⟨hE i h', h'⟩
  rw [filtered_unroll df hboth]
  unfold calculate_distance_matrix
  rw [if_pos (keys_nodup (matrixIds df) (symVal df)
    (nodup_of_pairwise_lt (pairwise_sortedDedup _)))]
  rw [matrixIds_bind_eq (matrixIds df) (symVal df) (pairwise_sortedDedup _) hlen']
  simp only [Option.some.injEq, DistMatrix.mk.injEq]
  refine ⟨trivial, ?_⟩
  rw [List.map_map]
  refine List.map_congr_left ?_
  intro i hi
  simp only [Function.comp_apply]
  rw [List.map_map]
  refine List.map_congr_left ?_
  intro j hj
  simp only [Function.comp_apply]
  exact rebuilt_cell df hboth hlen' hi hj

/-- C7, witness for the amended theorem. -/
theorem C7_witness :
    calculate_distance_matrix
        ((unroll_distance_matrix ⟨[1, 2], [[some 0, some 20], [some 20, some 0]]⟩).filter
          (fun r => r.id_start != r.id_end)) =
      some ⟨[1, 2], [[some 0, some 40], [some 40, some 0]]⟩ := by
  have h := C7_roundtrip_doubles [⟨1, 2, 10⟩, ⟨2, 1, 10⟩]
    ⟨[1, 2], [[some 0, some 20], [some 20, some 0]]⟩
    (by norm_num [calculate_distance_matrix, matrixIds, sortedDedup, insertSorted, startIds,
      endIds, pairKeys, cellFinal, cellAdded, cellRaw, pivotLookup, List.find?, int_beq_eq_decide])
    (by norm_num [startIds, endIds])
    (by norm_num [startIds, endIds])
    (by norm_num)
  rw [h]
  norm_num
